import Mathlib

/-!
Verification of the scheduling engine of `backend/app.py`
(ai-manufacturing-optimizer): a shallow embedding of the data model,
the Sequential Estimator, the Problem Assembler, the CP-SAT constraint
model built by `/api/optimize`, and the HTTP mutation endpoints, with
theorems settling the spec's claims about them.

Conventions of the embedding:
* timestamps are rationals counting seconds (Python `datetime` values,
  truncation to the minute is `floorToMinute`);
* durations are rationals counting hours (column `duration_hours`);
* the database is an explicit record of lists of rows; each endpoint
  is a pure function from a database state and a request body to the
  next database state and an HTTP status code — the psycopg2
  commit/rollback transaction discipline of the source makes each
  endpoint's write set atomic, which the pure function renders as a
  single state transition;
* the CP-SAT model is represented by the constraints the source emits
  (interval equations, precedence inequalities, no-overlap groups),
  and the external solver by an arbitrary function returning a status
  and an assignment; the Optimization Capability contract says a
  returned assignment satisfies the emitted model (`Satisfies`).
-/

namespace SchedulerApp

abbrev TaskId := Nat
abbrev MachineId := Nat

/-- The five task states of the data model.  The wire strings accepted by
`PATCH /tasks/{id}/status` (list `valid_statuses` in the source) are
produced by `Status.toWire`; note the source spells the third one
with a space: `'In Progress'`. -/
inductive Status where
  | Pending
  | Scheduled
  | InProgress
  | Completed
  | Canceled
deriving DecidableEq

/-- Serialization of a status as stored in the `tasks.status` column and
checked against `valid_statuses` in `update_task_status`. -/
def Status.toWire : Status → String
  | .Pending => "Pending"
  | .Scheduled => "Scheduled"
  | .InProgress => "In Progress"
  | .Completed => "Completed"
  | .Canceled => "Canceled"

/-- A row of the `tasks` relation. -/
structure Task where
  task_id : TaskId
  job_id : Nat
  name : String
  duration_hours : ℚ
  required_machine_id : MachineId
  status : Status
  start_time : Option ℚ
  end_time : Option ℚ
deriving DecidableEq

/-- A row of the `machines` relation. -/
structure Machine where
  machine_id : MachineId
  name : String
  capacity : ℤ
deriving DecidableEq

/-- The persistent store: the three relations the scheduling engine reads
and writes (`production_logs` plays no part in any claim). -/
structure DB where
  machines : List Machine
  tasks : List Task
  precedences : List (TaskId × TaskId)
deriving DecidableEq

/-- Truncation of a timestamp via `t.replace(second=0, microsecond=0)`: down
to the whole minute. -/
def floorToMinute (t : ℚ) : ℚ := 60 * ((⌊t / 60⌋ : ℤ) : ℚ)

/-- Python `int()` on a rational: truncation toward zero. -/
def pyIntTrunc (q : ℚ) : ℤ := if q < 0 then ⌈q⌉ else ⌊q⌋

/-- Conversion `int(float(data['duration']) * 60)` — the interval length in minutes
given a duration in hours (fractional minutes are truncated). -/
def durationMinutes (d : ℚ) : ℤ := pyIntTrunc (d * 60)

/-! ### Sequential Estimator (`calculate_sequential_schedule`) -/

/-- The non-null `end_time` values of the tasks bound to a machine — the
rows over which `SELECT MAX(end_time) ... WHERE required_machine_id = %s`
aggregates (SQL `MAX` ignores NULLs; no status filter appears). -/
def machineEndTimes (tasks : List Task) (m : MachineId) : List ℚ :=
  tasks.filterMap (fun t => if t.required_machine_id = m then t.end_time else none)

/-- SQL `MAX` over a column: `none` on an empty set of non-null values. -/
def sqlMax : List ℚ → Option ℚ
  | [] => none
  | x :: xs =>
    match sqlMax xs with
    | none => some x
    | some m => some (max x m)

/-- Estimator `calculate_sequential_schedule(conn, machine_id, duration_hours)`:
anchor at the latest `end_time` on the machine, else at `now`; truncate
the anchor to the minute; the end is `start + timedelta(hours=duration)`. -/
def calculate_sequential_schedule (tasks : List Task) (machine_id : MachineId)
    (duration_hours : ℚ) (now : ℚ) : ℚ × ℚ :=
  let anchor := (sqlMax (machineEndTimes tasks machine_id)).getD now
  let start_time := floorToMinute anchor
  (start_time, start_time + duration_hours * 3600)

/-! ### Problem Assembler (`fetch_scheduling_data`) -/

/-- The `WHERE` clause of the task query:
`status != 'Completed' AND status != 'Scheduled'`. -/
def isEligible (t : Task) : Bool :=
  decide (t.status ≠ Status.Completed ∧ t.status ≠ Status.Scheduled)

/-- Assembler `fetch_scheduling_data(conn)`: all machines, the eligible tasks, and
every precedence edge. -/
def fetch_scheduling_data (db : DB) :
    List Machine × List Task × List (TaskId × TaskId) :=
  (db.machines, db.tasks.filter isEligible, db.precedences)

/-- The task set assembled into the model. -/
def fetch_tasks (db : DB) : List Task := (fetch_scheduling_data db).2.1

/-! ### Constraint Model Builder -/

/-- Constant `horizon = 100000` in `run_optimization`. -/
def horizon : ℤ := 100000

/-- One `NewIntervalVar(start, duration_minutes, end, ...)` per task. -/
structure IntervalVar where
  task_id : TaskId
  duration : ℤ
  machine_id : MachineId
deriving DecidableEq

/-- The constraints `run_optimization` emits into the `CpModel`. -/
structure CpModel where
  hor : ℤ
  intervals : List IntervalVar
  precedenceConstraints : List (TaskId × TaskId)
  noOverlapGroups : List (MachineId × List TaskId)
deriving DecidableEq

/-- The interval variables: one per assembled task, with the truncated
minute duration. -/
def taskIntervals (tasks : List Task) : List IntervalVar :=
  tasks.map (fun t =>
    ⟨t.task_id, durationMinutes t.duration_hours, t.required_machine_id⟩)

/-- The precedence edges for which a constraint is emitted: step 3 of
`run_optimization` keeps an edge exactly when both endpoints are keys of
`task_vars`. -/
def retainedPrecedences (tasks : List Task)
    (precedences : List (TaskId × TaskId)) : List (TaskId × TaskId) :=
  precedences.filter
    (fun e => (tasks.any (fun t => t.task_id == e.1)) &&
              (tasks.any (fun t => t.task_id == e.2)))

/-- The intervals collected for one machine in `machine_intervals`. -/
def machineGroup (tasks : List Task) (m : MachineId) : List TaskId :=
  (tasks.filter (fun t => t.required_machine_id == m)).map (·.task_id)

/-- Step 4 of `run_optimization`: one `AddNoOverlap` group per machine
whose capacity equals 1, over the intervals of the tasks requiring it;
machines with any other capacity contribute no group. -/
def noOverlapGroups (machines : List Machine) (tasks : List Task) :
    List (MachineId × List TaskId) :=
  (machines.filter (fun m => m.capacity == 1)).map
    (fun m => (m.machine_id, machineGroup tasks m.machine_id))

/-- The model `run_optimization` builds from the assembled data. -/
def buildModel (machines : List Machine) (tasks : List Task)
    (precedences : List (TaskId × TaskId)) : CpModel :=
  { hor := horizon
    intervals := taskIntervals tasks
    precedenceConstraints := retainedPrecedences tasks precedences
    noOverlapGroups := noOverlapGroups machines tasks }

/-- The model built by `/api/optimize` on a given database state. -/
def optModel (db : DB) : CpModel :=
  buildModel db.machines (fetch_tasks db) db.precedences

/-- A value for every start and end variable, in minutes from the solve
anchor (the solver's integer assignment). -/
structure Assignment where
  startOf : TaskId → ℤ
  endOf : TaskId → ℤ

/-- Two intervals do not overlap: one ends at or before the other starts,
in either order. -/
def NoOverlapPair (A : Assignment) (i j : TaskId) : Prop :=
  A.endOf i ≤ A.startOf j ∨ A.endOf j ≤ A.startOf i

instance (A : Assignment) (i j : TaskId) : Decidable (NoOverlapPair A i j) := by
  unfold NoOverlapPair; infer_instance

/-- An assignment satisfies the emitted model: variable bounds and the
interval equation for every interval, every precedence inequality, and
pairwise non-overlap inside every no-overlap group.  The Optimization
Capability contract (§4.4) guarantees this of any assignment returned
with `Optimal` or `Feasible`. -/
def Satisfies (M : CpModel) (A : Assignment) : Prop :=
  (∀ iv ∈ M.intervals,
      0 ≤ A.startOf iv.task_id ∧ A.startOf iv.task_id ≤ M.hor ∧
      0 ≤ A.endOf iv.task_id ∧ A.endOf iv.task_id ≤ M.hor ∧
      A.endOf iv.task_id = A.startOf iv.task_id + iv.duration) ∧
  (∀ e ∈ M.precedenceConstraints, A.endOf e.1 ≤ A.startOf e.2) ∧
  (∀ g ∈ M.noOverlapGroups, g.2.Pairwise (NoOverlapPair A))

instance (M : CpModel) (A : Assignment) : Decidable (Satisfies M A) := by
  unfold Satisfies; infer_instance

/-! ### Optimization Adapter -/

/-- The statuses `CpSolver.Solve` can report. -/
inductive CpSolverStatus where
  | OPTIMAL
  | FEASIBLE
  | INFEASIBLE
  | MODEL_INVALID
  | UNKNOWN
deriving DecidableEq

/-- What a solve returns: a status, values for the variables (meaningful
only when the status is `OPTIMAL` or `FEASIBLE`), and the objective. -/
structure SolverResult where
  status : CpSolverStatus
  assignment : Assignment
  objective : ℤ

/-- The fields of the JSON body of `/api/optimize` that the claims are
about, together with the HTTP status code. -/
structure OptimizeResponse where
  httpCode : Nat
  statusField : Option String
  makespanMinutes : Option ℤ
deriving DecidableEq

/-! ### Endpoints -/

/-- The list `valid_statuses` in `update_task_status`. -/
def validStatusStrings : List String :=
  ["In Progress", "Completed", "Canceled", "Pending", "Scheduled"]

/-- Decode a wire string into a status; defined exactly on the strings of
`valid_statuses` (lemma `parseStatus_eq_none_iff`). -/
def parseStatus (s : String) : Option Status :=
  if s = "Pending" then some .Pending
  else if s = "Scheduled" then some .Scheduled
  else if s = "In Progress" then some .InProgress
  else if s = "Completed" then some .Completed
  else if s = "Canceled" then some .Canceled
  else none

/-- Endpoint `PATCH /tasks/{id}/status` (`update_task_status`): 400 when the body
has no status or an invalid one; otherwise `UPDATE tasks SET status = %s
WHERE task_id = %s`, answering 404 when no row matched (the transaction
is then never committed, so the state is unchanged) and 200 otherwise.
The source touches only the `status` column: `start_time` and `end_time`
are left as they were. -/
def update_task_status (db : DB) (task_id : TaskId)
    (body_status : Option String) : DB × Nat :=
  match body_status with
  | none => (db, 400)
  | some s =>
    if s = "" then (db, 400)
    else
      match parseStatus s with
      | none => (db, 400)
      | some st =>
        if ∀ t ∈ db.tasks, t.task_id ≠ task_id then (db, 404)
        else ({ db with tasks := db.tasks.map (fun t =>
                 if t.task_id = task_id then { t with status := st } else t) },
              200)

/-- Python truthiness of an id field of the JSON body
(`not predecessor_id` is true for `None` and for `0`). -/
def pyTruthyId (x : Option Int) : Bool :=
  match x with
  | none => false
  | some v => v != 0

/-- Endpoint `POST /precedences` (`add_precedence`): after the missing-field check,
the source invokes `cur.execute(sql, predecessor_id=data.get('predecessor_id'))`
— a keyword argument, which psycopg2's `execute(query, vars)` does not
accept, so a `TypeError` is raised before any SQL runs; the `except`
handler answers 500 and nothing is ever inserted or committed.  The
intended `INSERT INTO precedences` (per the success message and the
spec) is unreachable. -/
def add_precedence (db : DB) (predecessor_id successor_id : Option Int) :
    DB × Nat :=
  if !(pyTruthyId predecessor_id) || !(pyTruthyId successor_id) then (db, 400)
  else (db, 500)

/-- The JSON body of `PATCH /tasks/{id}` (`edit_task_details`). -/
structure EditBody where
  name : Option String
  duration_hours : Option ℚ
  machine_name : Option String

/-- The machine-name sub-step of `edit_task_details`: nothing to resolve
when no `machine_name` was given; `none` (a 404) when it names no
machine; otherwise the resolved `machine_id`. -/
def machineLookup (db : DB) (mn? : Option String) : Option (Option MachineId) :=
  match mn? with
  | none => some none
  | some mn =>
    match db.machines.find? (fun m => m.name == mn) with
    | none => none
    | some m => some (some m.machine_id)

/-- Endpoint `PATCH /tasks/{id}` (`edit_task_details`): 400 when no editable field
is present; 404 when a given machine name is unknown or the task id
matches no row; otherwise the given fields are written and the row is
forced to `status = 'Pending', start_time = NULL, end_time = NULL`. -/
def edit_task_details (db : DB) (task_id : TaskId) (body : EditBody) :
    DB × Nat :=
  if body.name = none ∧ body.duration_hours = none ∧ body.machine_name = none then
    (db, 400)
  else
    match machineLookup db body.machine_name with
    | none => (db, 404)
    | some newMachine =>
      if ∀ t ∈ db.tasks, t.task_id ≠ task_id then (db, 404)
      else ({ db with tasks := db.tasks.map (fun t =>
               if t.task_id = task_id then
                 { t with
                   name := body.name.getD t.name
                   duration_hours := body.duration_hours.getD t.duration_hours
                   required_machine_id := newMachine.getD t.required_machine_id
                   status := .Pending
                   start_time := none
                   end_time := none }
               else t) },
            200)

/-- The anchor `schedule_start_time` of `run_optimization`: the parsed
caller-supplied instant if present, else the current instant with
seconds dropped; either way line 360 truncates it to the minute. -/
def scheduleAnchor (callerStart : Option ℚ) (now : ℚ) : ℚ :=
  match callerStart with
  | some t => floorToMinute t
  | none => floorToMinute (floorToMinute now)

/-- The `UPDATE tasks SET start_time = %s, end_time = %s,
status = 'Scheduled' WHERE task_id = %s` loop of the success branch,
executed for every key of `task_vars` inside one transaction committed
at the end (so the batch is atomic: the pure function is the committed
outcome). Offsets are minutes from the anchor
(`timedelta(minutes=offset)`). -/
def applyAssignment (db : DB) (anchor : ℚ) (solved : List TaskId)
    (A : Assignment) : DB :=
  { db with tasks := db.tasks.map (fun t =>
      if t.task_id ∈ solved then
        { t with
          start_time := some (anchor + 60 * ((A.startOf t.task_id : ℤ) : ℚ))
          end_time := some (anchor + 60 * ((A.endOf t.task_id : ℤ) : ℚ))
          status := .Scheduled }
      else t) }

/-- Endpoint `POST /api/optimize` (`run_optimization`), with the external solver
passed as a function: assemble the data, answer 200 with no change when
no task is eligible, otherwise build the model and solve; on `OPTIMAL`
or `FEASIBLE` materialize the assignment and answer 200 with the field
`"status": "OPTIMAL"` (regardless of which of the two the solver
reported) and the objective as `makespan_minutes`; on any other status
answer 400 with `"status": "INFEASIBLE"` and change nothing. -/
def run_optimization (db : DB) (callerStart : Option ℚ) (now : ℚ)
    (solve : CpModel → SolverResult) : DB × OptimizeResponse :=
  let sel := fetch_tasks db
  if sel.isEmpty then (db, ⟨200, none, none⟩)
  else
    let res := solve (optModel db)
    if res.status = .OPTIMAL ∨ res.status = .FEASIBLE then
      (applyAssignment db (scheduleAnchor callerStart now)
         (sel.map (·.task_id)) res.assignment,
       ⟨200, some "OPTIMAL", some res.objective⟩)
    else (db, ⟨400, some "INFEASIBLE", none⟩)

/-! ### The data-model invariant (§3) -/

/-- The data-model invariant of spec section 3 on one row: a `Scheduled` or `Completed` task has both
timestamps, and their difference is the duration to within the minute
rounding (one minute in seconds). -/
def checkInvariant (t : Task) : Bool :=
  if t.status = Status.Scheduled ∨ t.status = Status.Completed then
    match t.start_time, t.end_time with
    | some s, some e => decide (|e - s - t.duration_hours * 3600| < 60)
    | _, _ => false
  else true

/-- The invariant over a whole database state. -/
def dbInvariant (db : DB) : Prop := ∀ t ∈ db.tasks, checkInvariant t = true

instance (db : DB) : Decidable (dbInvariant db) := by
  unfold dbInvariant; infer_instance

/-! ### Concrete fixtures -/

/-- A task row with the fields the theorems care about. -/
def mkTask (id : TaskId) (d : ℚ) (m : MachineId) (st : Status)
    (s e : Option ℚ) : Task :=
  { task_id := id, job_id := id, name := "T", duration_hours := d,
    required_machine_id := m, status := st, start_time := s, end_time := e }

def c1_db : DB :=
  { machines := [⟨1, "M1", 1⟩],
    tasks := [mkTask 1 1 1 .Pending none none, mkTask 2 1 1 .Pending none none],
    precedences := [(1, 2)] }

def c1_A : Assignment :=
  ⟨fun i => if i = 2 then 60 else 0, fun i => if i = 2 then 120 else 60⟩

def c2_db : DB :=
  { machines := [⟨1, "M1", 1⟩, ⟨2, "M2", 2⟩],
    tasks := [mkTask 1 1 1 .Pending none none, mkTask 2 1 1 .Pending none none,
              mkTask 3 1 2 .Pending none none],
    precedences := [] }

def c2_A : Assignment :=
  ⟨fun i => if i = 2 then 60 else 0, fun i => if i = 2 then 120 else 60⟩

def c3_db : DB :=
  { machines := [⟨1, "M1", 1⟩],
    tasks := [mkTask 1 1 1 .Pending none none, mkTask 2 1 1 .Pending none none],
    precedences := [] }

def c4_db : DB :=
  { machines := [⟨1, "M1", 1⟩],
    tasks := [mkTask 1 1 1 .Pending none none],
    precedences := [] }

def c4_solve : CpModel → SolverResult :=
  fun _ => ⟨.OPTIMAL, ⟨fun _ => 0, fun _ => 60⟩, 60⟩

def c4_noSolve : CpModel → SolverResult :=
  fun _ => ⟨.INFEASIBLE, ⟨fun _ => 0, fun _ => 0⟩, 0⟩

def c5_db : DB :=
  { machines := [⟨1, "M1", 1⟩],
    tasks := [mkTask 1 2 1 .Pending none none],
    precedences := [] }

def c5w_db : DB :=
  { machines := [⟨1, "M1", 1⟩],
    tasks := [mkTask 1 1 1 .Pending none none],
    precedences := [] }

def c5w_solve : CpModel → SolverResult :=
  fun _ => ⟨.OPTIMAL, ⟨fun _ => 0, fun _ => 60⟩, 60⟩

def c6_tasks : List Task := [mkTask 1 1 1 .Pending (some 0) (some 3690)]

def c7_db : DB :=
  { machines := [⟨1, "M1", 1⟩],
    tasks := [mkTask 1 1 1 .Pending none none,
              mkTask 2 1 1 .Completed (some 0) (some 3600)],
    precedences := [(1, 2), (1, 1)] }

def c8_db : DB :=
  { machines := [⟨1, "M1", 1⟩],
    tasks := [mkTask 1 1 1 .Pending none none],
    precedences := [] }

def c9_db : DB :=
  { machines := [⟨1, "M1", 1⟩],
    tasks := [mkTask 1 1 1 .Pending none none],
    precedences := [] }

def c9_solve : CpModel → SolverResult :=
  fun _ => ⟨.FEASIBLE, ⟨fun _ => 0, fun _ => 60⟩, 60⟩

def c10_db : DB :=
  { machines := [⟨1, "M1", 1⟩],
    tasks := [mkTask 1 1 1 .Canceled none none],
    precedences := [] }

def c10_solve : CpModel → SolverResult :=
  fun _ => ⟨.OPTIMAL, ⟨fun _ => 0, fun _ => 60⟩, 60⟩

/-! ### Shared lemmas -/

theorem sqlMax_eq_none {l : List ℚ} : sqlMax l = none ↔ l = [] := by
  cases l with
  | nil => simp [sqlMax]
  | cons x xs =>
    cases h : sqlMax xs <;> simp [sqlMax, h]

theorem sqlMax_mem {l : List ℚ} {v : ℚ} (h : sqlMax l = some v) : v ∈ l := by
  induction l generalizing v with
  | nil => simp [sqlMax] at h
  | cons x xs ih =>
    cases hx : sqlMax xs with
    | none =>
      rw [sqlMax, hx] at h
      simp at h
      simp [h]
    | some m =>
      rw [sqlMax, hx] at h
      simp at h
      rcases max_choice x m with hc | hc <;> rw [hc] at h
      · simp [h]
      · exact List.mem_cons_of_mem _ (ih (by rw [hx, h]))

theorem sqlMax_isUB {l : List ℚ} {v : ℚ} (h : sqlMax l = some v) :
    ∀ x ∈ l, x ≤ v := by
  induction l generalizing v with
  | nil => simp [sqlMax] at h
  | cons a as ih =>
    intro x hx
    cases ha : sqlMax as with
    | none =>
      have hnil : as = [] := sqlMax_eq_none.mp ha
      subst hnil
      simp [sqlMax] at h
      simp at hx
      simp [hx, h]
    | some m =>
      rw [sqlMax, ha] at h
      simp at h
      rcases List.mem_cons.mp hx with rfl | hmem
      · rw [← h]; exact le_max_left _ _
      · calc x ≤ m := ih ha x hmem
          _ ≤ v := by rw [← h]; exact le_max_right _ _

theorem parseStatus_toWire (st : Status) : parseStatus st.toWire = some st := by
  cases st <;> rfl

theorem parseStatus_eq_none_iff (s : String) :
    parseStatus s = none ↔ s ∉ validStatusStrings := by
  unfold parseStatus validStatusStrings
  split_ifs with h1 h2 h3 h4 h5 <;> simp_all

theorem valid_iff_wire (s : String) :
    s ∈ validStatusStrings ↔ ∃ st : Status, st.toWire = s := by
  constructor
  · intro h
    simp only [validStatusStrings, List.mem_cons, List.mem_singleton,
      List.not_mem_nil, or_false] at h
    rcases h with rfl | rfl | rfl | rfl | rfl
    exacts [⟨.InProgress, rfl⟩, ⟨.Completed, rfl⟩, ⟨.Canceled, rfl⟩,
      ⟨.Pending, rfl⟩, ⟨.Scheduled, rfl⟩]
  · rintro ⟨st, rfl⟩
    cases st <;> simp [validStatusStrings, Status.toWire]

theorem durationMinutes_close (d : ℚ) :
    |((durationMinutes d : ℤ) : ℚ) - d * 60| < 1 := by
  unfold durationMinutes pyIntTrunc
  split_ifs with h
  · rw [abs_lt]
    constructor
    · linarith [Int.le_ceil (d * 60)]
    · linarith [Int.ceil_lt_add_one (d * 60)]
  · rw [abs_lt]
    constructor
    · linarith [Int.sub_one_lt_floor (d * 60)]
    · linarith [Int.floor_le (d * 60)]

theorem mem_fetch_tasks {db : DB} {t : Task} :
    t ∈ fetch_tasks db ↔
      t ∈ db.tasks ∧ t.status ≠ Status.Completed ∧ t.status ≠ Status.Scheduled := by
  simp [fetch_tasks, fetch_scheduling_data, isEligible, List.mem_filter]

theorem mem_retainedPrecedences {tasks : List Task}
    {precedences : List (TaskId × TaskId)} {e : TaskId × TaskId} :
    e ∈ retainedPrecedences tasks precedences ↔
      e ∈ precedences ∧ (∃ t ∈ tasks, t.task_id = e.1) ∧
        (∃ t ∈ tasks, t.task_id = e.2) := by
  simp [retainedPrecedences, List.mem_filter, List.any_eq_true]

theorem mem_machineGroup {tasks : List Task} {m : MachineId} {i : TaskId} :
    i ∈ machineGroup tasks m ↔
      ∃ t ∈ tasks, t.required_machine_id = m ∧ t.task_id = i := by
  simp only [machineGroup, List.mem_map, List.mem_filter, beq_iff_eq]
  constructor
  · rintro ⟨t, ⟨ht, hm⟩, hi⟩
    exact ⟨t, ht, hm, hi⟩
  · rintro ⟨t, ht, hm, hi⟩
    exact ⟨t, ⟨ht, hm⟩, hi⟩

theorem mem_noOverlapGroups {machines : List Machine} {tasks : List Task}
    {g : MachineId × List TaskId} :
    g ∈ noOverlapGroups machines tasks ↔
      ∃ m ∈ machines, m.capacity = 1 ∧
        g = (m.machine_id, machineGroup tasks m.machine_id) := by
  simp only [noOverlapGroups, List.mem_map, List.mem_filter, beq_iff_eq]
  constructor
  · rintro ⟨m, ⟨hm, hc⟩, hg⟩
    exact ⟨m, hm, hc, hg.symm⟩
  · rintro ⟨m, hm, hc, hg⟩
    exact ⟨m, ⟨hm, hc⟩, hg.symm⟩

theorem noOverlapPair_symm (A : Assignment) : Symmetric (NoOverlapPair A) :=
  fun _ _ h => h.symm

/-- Evaluation of the model built on the `c1_db` fixture. -/
theorem c1_model_eval :
    optModel c1_db =
      { hor := 100000,
        intervals := [⟨1, 60, 1⟩, ⟨2, 60, 1⟩],
        precedenceConstraints := [(1, 2)],
        noOverlapGroups := [(1, [1, 2])] } := by
  have h60 : durationMinutes 1 = 60 := by norm_num [durationMinutes, pyIntTrunc]
  have hsel : fetch_tasks c1_db = c1_db.tasks := by decide
  unfold optModel buildModel
  rw [hsel]
  simp [taskIntervals, retainedPrecedences, noOverlapGroups, machineGroup,
    horizon, c1_db, mkTask, h60, List.filter, List.map]

/-- Evaluation of the model built on the `c2_db` fixture. -/
theorem c2_model_eval :
    optModel c2_db =
      { hor := 100000,
        intervals := [⟨1, 60, 1⟩, ⟨2, 60, 1⟩, ⟨3, 60, 2⟩],
        precedenceConstraints := [],
        noOverlapGroups := [(1, [1, 2])] } := by
  have h60 : durationMinutes 1 = 60 := by norm_num [durationMinutes, pyIntTrunc]
  have hsel : fetch_tasks c2_db = c2_db.tasks := by decide
  unfold optModel buildModel
  rw [hsel]
  simp [taskIntervals, retainedPrecedences, noOverlapGroups, machineGroup,
    horizon, c2_db, mkTask, h60, List.filter, List.map]

/-- Branch lemma: a non-empty backlog and a usable solver status reach the
materialization branch of `run_optimization`. -/
theorem run_optimization_success (db : DB) (callerStart : Option ℚ) (now : ℚ)
    (solve : CpModel → SolverResult)
    (hne : fetch_tasks db ≠ [])
    (hs : (solve (optModel db)).status = CpSolverStatus.OPTIMAL ∨
          (solve (optModel db)).status = CpSolverStatus.FEASIBLE) :
    run_optimization db callerStart now solve =
      (applyAssignment db (scheduleAnchor callerStart now)
        ((fetch_tasks db).map (·.task_id)) (solve (optModel db)).assignment,
       ⟨200, some "OPTIMAL", some (solve (optModel db)).objective⟩) := by
  have hne' : ¬ ((fetch_tasks db).isEmpty = true) := by
    simpa [List.isEmpty_iff] using hne
  unfold run_optimization
  rw [if_neg hne', if_pos hs]

/-- Branch lemma: a non-empty backlog and a failure status reach the 400
branch of `run_optimization`, leaving the state untouched. -/
theorem run_optimization_failure (db : DB) (callerStart : Option ℚ) (now : ℚ)
    (solve : CpModel → SolverResult)
    (hne : fetch_tasks db ≠ [])
    (hs : ¬ ((solve (optModel db)).status = CpSolverStatus.OPTIMAL ∨
             (solve (optModel db)).status = CpSolverStatus.FEASIBLE)) :
    run_optimization db callerStart now solve =
      (db, ⟨400, some "INFEASIBLE", none⟩) := by
  have hne' : ¬ ((fetch_tasks db).isEmpty = true) := by
    simpa [List.isEmpty_iff] using hne
  unfold run_optimization
  rw [if_neg hne', if_neg hs]

/-- Membership lemma: each assembled task's updated row is in the
materialized state. -/
theorem applyAssignment_mem {db : DB} {anchor : ℚ} {A : Assignment}
    {t : Task} (ht : t ∈ fetch_tasks db) :
    { t with
      start_time := some (anchor + 60 * ((A.startOf t.task_id : ℤ) : ℚ)),
      end_time := some (anchor + 60 * ((A.endOf t.task_id : ℤ) : ℚ)),
      status := Status.Scheduled } ∈
      (applyAssignment db anchor ((fetch_tasks db).map (·.task_id)) A).tasks := by
  have htdb : t ∈ db.tasks := (mem_fetch_tasks.mp ht).1
  have hid : t.task_id ∈ (fetch_tasks db).map (·.task_id) :=
    List.mem_map_of_mem _ ht
  unfold applyAssignment
  refine List.mem_map.mpr ⟨t, htdb, ?_⟩
  rw [if_pos hid]

/-- A row whose status is `Pending` satisfies §3's invariant vacuously. -/
theorem checkInvariant_of_pending {t : Task} (h : t.status = Status.Pending) :
    checkInvariant t = true := by
  simp [checkInvariant, h]

/-- A row restamped `Scheduled` with timestamps within the tolerance
satisfies §3's invariant. -/
theorem checkInvariant_mk (t : Task) (s e : ℚ)
    (h : |e - s - t.duration_hours * 3600| < 60) :
    checkInvariant { t with
      start_time := some s
      end_time := some e
      status := Status.Scheduled } = true := by
  simp [checkInvariant, h]

/-- Evaluation of the model built on the `c5w_db` fixture. -/
theorem c5w_model_eval :
    optModel c5w_db =
      { hor := 100000,
        intervals := [⟨1, 60, 1⟩],
        precedenceConstraints := [],
        noOverlapGroups := [(1, [1])] } := by
  have h60 : durationMinutes 1 = 60 := by norm_num [durationMinutes, pyIntTrunc]
  have hsel : fetch_tasks c5w_db = c5w_db.tasks := by decide
  unfold optModel buildModel
  rw [hsel]
  simp [taskIntervals, retainedPrecedences, noOverlapGroups, machineGroup,
    horizon, c5w_db, mkTask, h60, List.filter, List.map]

/-! ### Claims -/

/-- C1: for every precedence edge (pred, succ) whose two endpoints are in
the assembled task set, the constraint `start(succ) ≥ end(pred)` is in
the model `/api/optimize` builds, and any assignment satisfying the model
(every assignment a successful solve returns does, by the Optimization
Capability contract) obeys the inequality — it is hard, never violated. -/
theorem c1_precedence_hard_constraint (db : DB) (A : Assignment)
    (p s : TaskId) (hmem : (p, s) ∈ db.precedences)
    (hp : ∃ t ∈ fetch_tasks db, t.task_id = p)
    (hs : ∃ t ∈ fetch_tasks db, t.task_id = s)
    (hSat : Satisfies (optModel db) A) :
    (p, s) ∈ (optModel db).precedenceConstraints ∧ A.endOf p ≤ A.startOf s := by
  have hin : (p, s) ∈ retainedPrecedences (fetch_tasks db) db.precedences :=
    mem_retainedPrecedences.mpr ⟨hmem, hp, hs⟩
  exact ⟨hin, hSat.2.1 (p, s) hin⟩

/-- C1 witness: a two-task fixture with the edge (1, 2) and a satisfying
assignment. -/
theorem c1_witness :
    (1, 2) ∈ (optModel c1_db).precedenceConstraints ∧
      c1_A.endOf 1 ≤ c1_A.startOf 2 :=
  c1_precedence_hard_constraint c1_db c1_A 1 2 (by decide)
    ⟨mkTask 1 1 1 .Pending none none, by decide, rfl⟩
    ⟨mkTask 2 1 1 .Pending none none, by decide, rfl⟩
    (by rw [c1_model_eval]; decide)

/-- C2: for every machine of capacity 1, a no-overlap group over exactly
the intervals of the assembled tasks requiring it is in the model, and in
any assignment satisfying the model no two distinct such tasks overlap;
for a machine of any other capacity no group carrying it exists at all
(machine ids assumed distinct, as the primary key makes them). -/
theorem c2_capacity_one_exclusive (db : DB) (A : Assignment)
    (hNodupM : (db.machines.map (·.machine_id)).Nodup)
    (hSat : Satisfies (optModel db) A) :
    (∀ m ∈ db.machines, m.capacity = 1 →
      (m.machine_id, machineGroup (fetch_tasks db) m.machine_id) ∈
          (optModel db).noOverlapGroups ∧
      (∀ t1 ∈ fetch_tasks db, ∀ t2 ∈ fetch_tasks db,
        t1.required_machine_id = m.machine_id →
        t2.required_machine_id = m.machine_id →
        t1.task_id ≠ t2.task_id → NoOverlapPair A t1.task_id t2.task_id)) ∧
    (∀ m ∈ db.machines, m.capacity ≠ 1 →
      ∀ g ∈ (optModel db).noOverlapGroups, g.1 ≠ m.machine_id) := by
  constructor
  · intro m hm hc
    have hgmem : (m.machine_id, machineGroup (fetch_tasks db) m.machine_id) ∈
        (optModel db).noOverlapGroups :=
      mem_noOverlapGroups.mpr ⟨m, hm, hc, rfl⟩
    refine ⟨hgmem, ?_⟩
    intro t1 h1 t2 h2 hm1 hm2 hne
    have hpw := hSat.2.2 _ hgmem
    have hmem1 : t1.task_id ∈ machineGroup (fetch_tasks db) m.machine_id :=
      mem_machineGroup.mpr ⟨t1, h1, hm1, rfl⟩
    have hmem2 : t2.task_id ∈ machineGroup (fetch_tasks db) m.machine_id :=
      mem_machineGroup.mpr ⟨t2, h2, hm2, rfl⟩
    exact List.Pairwise.forall (noOverlapPair_symm A) hpw hmem1 hmem2 hne
  · intro m hm hc g hg
    rcases mem_noOverlapGroups.mp hg with ⟨m', hm', hc', rfl⟩
    intro hEq
    have : m' = m := List.inj_on_of_nodup_map hNodupM hm' hm hEq
    exact hc (this ▸ hc')

/-- C2 witness: the model on `c2_db` has the group of its capacity-1
machine, and the satisfying assignment keeps its two tasks apart. -/
theorem c2_witness :
    (1, [1, 2]) ∈ (optModel c2_db).noOverlapGroups ∧
      NoOverlapPair c2_A 1 2 := by
  have h := c2_capacity_one_exclusive c2_db c2_A (by decide)
    (by rw [c2_model_eval]; decide)
  have h1 := h.1 ⟨1, "M1", 1⟩ (by decide) rfl
  have hg : machineGroup (fetch_tasks c2_db) 1 = [1, 2] := by decide
  refine ⟨by rw [← hg]; exact h1.1, ?_⟩
  exact h1.2 (mkTask 1 1 1 .Pending none none) (by decide)
    (mkTask 2 1 1 .Pending none none) (by decide) rfl rfl (by decide)

/-- C3: evaluating `add_precedence` on a complete, valid body
(`predecessor_id = 1`, `successor_id = 2`): the keyword-argument
`TypeError` inside `cur.execute` makes the handler answer 500 with
nothing inserted, where the claim (and the handler's own success
message) promise 201 with the edge stored; the missing-field paths do
answer 400 with nothing inserted, as claimed. -/
theorem c3_add_precedence_crashes :
    add_precedence c3_db (some 1) (some 2) = (c3_db, 500) ∧
    (add_precedence c3_db (some 1) (some 2)).1.precedences = [] ∧
    add_precedence c3_db none (some 2) = (c3_db, 400) ∧
    add_precedence c3_db (some 1) none = (c3_db, 400) :=
  ⟨rfl, rfl, rfl, rfl⟩

/-- C4: with a non-empty backlog, on `OPTIMAL` or `FEASIBLE` the endpoint
answers 200 and the committed batch holds, for every assembled task, its
row with `start_time = anchor + start_offset` minutes,
`end_time = anchor + end_offset` minutes and status `Scheduled` (the
batch is one transaction, modelled as the single state transition); on
any other solver status the state is exactly the input one and the
endpoint answers 400. -/
theorem c4_materialize_or_roll_back (db : DB) (callerStart : Option ℚ)
    (now : ℚ) (solve : CpModel → SolverResult)
    (hne : fetch_tasks db ≠ []) :
    (((solve (optModel db)).status = CpSolverStatus.OPTIMAL ∨
      (solve (optModel db)).status = CpSolverStatus.FEASIBLE) →
      (run_optimization db callerStart now solve).2.httpCode = 200 ∧
      (∀ t ∈ fetch_tasks db,
        { t with
          start_time := some (scheduleAnchor callerStart now +
            60 * (((solve (optModel db)).assignment.startOf t.task_id : ℤ) : ℚ)),
          end_time := some (scheduleAnchor callerStart now +
            60 * (((solve (optModel db)).assignment.endOf t.task_id : ℤ) : ℚ)),
          status := Status.Scheduled } ∈
          (run_optimization db callerStart now solve).1.tasks)) ∧
    (¬ ((solve (optModel db)).status = CpSolverStatus.OPTIMAL ∨
        (solve (optModel db)).status = CpSolverStatus.FEASIBLE) →
      run_optimization db callerStart now solve =
        (db, ⟨400, some "INFEASIBLE", none⟩)) := by
  constructor
  · intro hs
    rw [run_optimization_success db callerStart now solve hne hs]
    exact ⟨rfl, fun t ht => applyAssignment_mem ht⟩
  · intro hs
    exact run_optimization_failure db callerStart now solve hne hs

/-- C4 witness: a one-task fixture materialized by an `OPTIMAL` solve, and
untouched with a 400 under an `INFEASIBLE` one. -/
theorem c4_witness :
    (run_optimization c4_db (some 0) 0 c4_solve).2.httpCode = 200 ∧
    { (mkTask 1 1 1 .Pending none none) with
      start_time := some (scheduleAnchor (some 0) 0 + 60 * ((0 : ℤ) : ℚ)),
      end_time := some (scheduleAnchor (some 0) 0 + 60 * ((60 : ℤ) : ℚ)),
      status := Status.Scheduled } ∈
        (run_optimization c4_db (some 0) 0 c4_solve).1.tasks ∧
    run_optimization c4_db (some 0) 0 c4_noSolve =
      (c4_db, ⟨400, some "INFEASIBLE", none⟩) := by
  have h := c4_materialize_or_roll_back c4_db (some 0) 0 c4_solve (by decide)
  have h' := c4_materialize_or_roll_back c4_db (some 0) 0 c4_noSolve (by decide)
  refine ⟨(h.1 (Or.inl rfl)).1, ?_, h'.2 (by decide)⟩
  exact (h.1 (Or.inl rfl)).2 (mkTask 1 1 1 .Pending none none) (by decide)

/-- C9: whenever a solve yields a usable schedule — the solver reporting
`OPTIMAL` or merely `FEASIBLE` — the endpoint's JSON answer carries the
string "OPTIMAL" as its status field, code 200, and the solver objective
as the makespan. -/
theorem c9_reports_optimal (db : DB) (callerStart : Option ℚ) (now : ℚ)
    (solve : CpModel → SolverResult)
    (hne : fetch_tasks db ≠ [])
    (hs : (solve (optModel db)).status = CpSolverStatus.OPTIMAL ∨
          (solve (optModel db)).status = CpSolverStatus.FEASIBLE) :
    (run_optimization db callerStart now solve).2.statusField =
        some "OPTIMAL" ∧
    (run_optimization db callerStart now solve).2.httpCode = 200 ∧
    (run_optimization db callerStart now solve).2.makespanMinutes =
        some (solve (optModel db)).objective := by
  rw [run_optimization_success db callerStart now solve hne hs]
  exact ⟨rfl, rfl, rfl⟩

/-- C9 witness: a solver returning only `FEASIBLE` still gets reported as
"OPTIMAL". -/
theorem c9_witness :
    (run_optimization c9_db (some 0) 0 c9_solve).2.statusField =
        some "OPTIMAL" ∧
    (run_optimization c9_db (some 0) 0 c9_solve).2.httpCode = 200 ∧
    (run_optimization c9_db (some 0) 0 c9_solve).2.makespanMinutes =
        some 60 :=
  c9_reports_optimal c9_db (some 0) 0 c9_solve (by decide) (Or.inr rfl)

/-- C10: a `Canceled` (or `In Progress`) task is part of the assembled
backlog, and a successful solve rewrites it to `Scheduled` with freshly
computed timestamps — running the optimizer re-activates a canceled
task. -/
theorem c10_canceled_rescheduled (db : DB) (callerStart : Option ℚ)
    (now : ℚ) (solve : CpModel → SolverResult) (t : Task)
    (ht : t ∈ db.tasks)
    (hst : t.status = Status.Canceled ∨ t.status = Status.InProgress)
    (hs : (solve (optModel db)).status = CpSolverStatus.OPTIMAL ∨
          (solve (optModel db)).status = CpSolverStatus.FEASIBLE) :
    t ∈ fetch_tasks db ∧
    { t with
      start_time := some (scheduleAnchor callerStart now +
        60 * (((solve (optModel db)).assignment.startOf t.task_id : ℤ) : ℚ)),
      end_time := some (scheduleAnchor callerStart now +
        60 * (((solve (optModel db)).assignment.endOf t.task_id : ℤ) : ℚ)),
      status := Status.Scheduled } ∈
      (run_optimization db callerStart now solve).1.tasks := by
  have hsel : t ∈ fetch_tasks db := by
    refine mem_fetch_tasks.mpr ⟨ht, ?_⟩
    rcases hst with h | h <;> rw [h] <;> exact ⟨by decide, by decide⟩
  have hne : fetch_tasks db ≠ [] := by
    intro hnil; rw [hnil] at hsel; cases hsel
  rw [run_optimization_success db callerStart now solve hne hs]
  exact ⟨hsel, applyAssignment_mem hsel⟩

/-- C5 counterexample: the status-update endpoint does not preserve §3's
invariant.  On a store holding one `Pending` task with no timestamps (a
state satisfying the invariant), `PATCH /tasks/1/status` to `Scheduled`
succeeds with 200 and leaves a `Scheduled` task with `start_time` and
`end_time` both unset — the invariant is violated, refuting the claim
that every status-changing operation preserves it. -/
theorem c5_counterexample :
    dbInvariant c5_db ∧
    (update_task_status c5_db 1 (some "Scheduled")).2 = 200 ∧
    ¬ dbInvariant (update_task_status c5_db 1 (some "Scheduled")).1 := by
  refine ⟨by decide, by decide, by decide⟩

/-- C5 (corrected): the invariant "a `Scheduled` or `Completed` task has
both timestamps set with `end − start` equal to the duration to within
the minute rounding" is preserved by the task-edit endpoint (which
resets the row to `Pending` and clears both timestamps) and by a full
solve (whose interval equation stamps consistent offsets on every task
it updates, under the Optimization Capability contract and primary-key
uniqueness of task ids); the status-update endpoint, which rewrites
`status` without touching the timestamps, does not preserve it. -/
theorem c5_invariant_edit_and_solve (db : DB) (task_id : TaskId)
    (body : EditBody) (callerStart : Option ℚ) (now : ℚ)
    (solve : CpModel → SolverResult)
    (hInv : dbInvariant db)
    (hNodup : (db.tasks.map (·.task_id)).Nodup)
    (hContract : ((solve (optModel db)).status = CpSolverStatus.OPTIMAL ∨
        (solve (optModel db)).status = CpSolverStatus.FEASIBLE) →
      Satisfies (optModel db) (solve (optModel db)).assignment) :
    dbInvariant (edit_task_details db task_id body).1 ∧
    dbInvariant (run_optimization db callerStart now solve).1 := by
  constructor
  · unfold edit_task_details
    by_cases h1 : body.name = none ∧ body.duration_hours = none ∧
        body.machine_name = none
    · rw [if_pos h1]
      exact hInv
    · rw [if_neg h1]
      cases hml : machineLookup db body.machine_name with
      | none => exact hInv
      | some newMachine =>
        dsimp only
        by_cases h2 : ∀ t ∈ db.tasks, t.task_id ≠ task_id
        · rw [if_pos h2]
          exact hInv
        · rw [if_neg h2]
          intro t' ht'
          rcases List.mem_map.mp ht' with ⟨t0, ht0, rfl⟩
          by_cases he : t0.task_id = task_id
          · rw [if_pos he]
            exact checkInvariant_of_pending rfl
          · rw [if_neg he]
            exact hInv t0 ht0
  · by_cases hemp : fetch_tasks db = []
    · unfold run_optimization
      rw [if_pos (by simpa [List.isEmpty_iff] using hemp)]
      exact hInv
    · by_cases hs : (solve (optModel db)).status = CpSolverStatus.OPTIMAL ∨
          (solve (optModel db)).status = CpSolverStatus.FEASIBLE
      · have hSat := hContract hs
        rw [run_optimization_success db callerStart now solve hemp hs]
        intro t' ht'
        rcases List.mem_map.mp ht' with ⟨t0, ht0, rfl⟩
        by_cases hid : t0.task_id ∈ (fetch_tasks db).map (·.task_id)
        · rw [if_pos hid]
          rcases List.mem_map.mp hid with ⟨t1, ht1, hteq⟩
          have ht1db : t1 ∈ db.tasks := (mem_fetch_tasks.mp ht1).1
          have heq10 : t1 = t0 := List.inj_on_of_nodup_map hNodup ht1db ht0 hteq
          rw [heq10] at ht1
          have hiv : (⟨t0.task_id, durationMinutes t0.duration_hours,
              t0.required_machine_id⟩ : IntervalVar) ∈ (optModel db).intervals :=
            List.mem_map_of_mem _ ht1
          have heqe : (solve (optModel db)).assignment.endOf t0.task_id =
              (solve (optModel db)).assignment.startOf t0.task_id +
                durationMinutes t0.duration_hours :=
            (hSat.1 _ hiv).2.2.2.2
          refine checkInvariant_mk t0 _ _ ?_
          have hclose := durationMinutes_close t0.duration_hours
          have hrw : (scheduleAnchor callerStart now +
              60 * (((solve (optModel db)).assignment.endOf t0.task_id : ℤ) : ℚ)) -
              (scheduleAnchor callerStart now +
              60 * (((solve (optModel db)).assignment.startOf t0.task_id : ℤ) : ℚ)) -
              t0.duration_hours * 3600 =
              60 * (((durationMinutes t0.duration_hours : ℤ) : ℚ) -
                t0.duration_hours * 60) := by
            rw [heqe]
            push_cast
            ring
          rw [hrw, abs_mul, abs_of_nonneg (by norm_num : (0:ℚ) ≤ (60:ℚ))]
          calc (60:ℚ) * |((durationMinutes t0.duration_hours : ℤ) : ℚ) -
              t0.duration_hours * 60|
              < 60 * 1 := (mul_lt_mul_left (by norm_num)).mpr hclose
            _ = 60 := by norm_num
        · rw [if_neg hid]
          exact hInv t0 ht0
      · rw [run_optimization_failure db callerStart now solve hemp hs]
        exact hInv

/-- C5 witness: the corrected statement instantiated on a one-task store
with an edit body and an optimal solve. -/
theorem c5_witness :
    dbInvariant (edit_task_details c5w_db 1 ⟨some "N", none, none⟩).1 ∧
    dbInvariant (run_optimization c5w_db (some 0) 0 c5w_solve).1 :=
  c5_invariant_edit_and_solve c5w_db 1 ⟨some "N", none, none⟩ (some 0) 0
    c5w_solve (by decide) (by decide)
    (fun _ => by rw [c5w_model_eval]; decide)

/-- C6: the Sequential Estimator's end is always `start + duration` in
hours; its start is the truncation to the minute of the greatest
`end_time` among the tasks bound to the machine regardless of status
(witnessed by `sqlMax`: an attained upper bound of `machineEndTimes`),
or of the current instant when no such timestamp exists. -/
theorem c6_sequential_estimator (tasks : List Task) (m : MachineId)
    (d now : ℚ) :
    (calculate_sequential_schedule tasks m d now).2 =
      (calculate_sequential_schedule tasks m d now).1 + d * 3600 ∧
    (machineEndTimes tasks m = [] →
      (calculate_sequential_schedule tasks m d now).1 = floorToMinute now) ∧
    (∀ v, sqlMax (machineEndTimes tasks m) = some v →
      v ∈ machineEndTimes tasks m ∧
      (∀ x ∈ machineEndTimes tasks m, x ≤ v) ∧
      (calculate_sequential_schedule tasks m d now).1 = floorToMinute v) := by
  refine ⟨rfl, ?_, ?_⟩
  · intro h
    unfold calculate_sequential_schedule
    rw [sqlMax_eq_none.mpr h]
    rfl
  · intro v hv
    refine ⟨sqlMax_mem hv, sqlMax_isUB hv, ?_⟩
    unfold calculate_sequential_schedule
    rw [hv]
    rfl

/-- C6 witness: the spec's scenario — one task on machine 1 ending at
`T = 3690` seconds; a new 2-hour task starts at `T` truncated to the
minute and ends two hours later. -/
theorem c6_witness :
    (calculate_sequential_schedule c6_tasks 1 2 0).1 = floorToMinute 3690 ∧
    (calculate_sequential_schedule c6_tasks 1 2 0).2 =
      floorToMinute 3690 + 2 * 3600 := by
  have h := c6_sequential_estimator c6_tasks 1 2 0
  have hv : sqlMax (machineEndTimes c6_tasks 1) = some 3690 := by decide
  have h1 := (h.2.2 3690 hv).2.2
  exact ⟨h1, by rw [h.1, h1]⟩

/-- C7: the Problem Assembler passes all machines and all precedence
rows, and selects exactly the tasks whose status is neither `Completed`
nor `Scheduled`; a precedence edge yields a constraint exactly when both
endpoints are selected, so an edge touching an excluded task is dropped
with no constraint and no error (the builder is total), and no
constraint exists beyond the stored edges. -/
theorem c7_assembler_selection (db : DB) :
    (fetch_scheduling_data db).1 = db.machines ∧
    (fetch_scheduling_data db).2.2 = db.precedences ∧
    (∀ t, t ∈ fetch_tasks db ↔
      t ∈ db.tasks ∧ t.status ≠ Status.Completed ∧
        t.status ≠ Status.Scheduled) ∧
    (∀ e ∈ db.precedences,
      (e ∈ (optModel db).precedenceConstraints ↔
        (∃ t ∈ fetch_tasks db, t.task_id = e.1) ∧
        (∃ t ∈ fetch_tasks db, t.task_id = e.2))) ∧
    (∀ e, e ∈ (optModel db).precedenceConstraints → e ∈ db.precedences) := by
  refine ⟨rfl, rfl, fun t => mem_fetch_tasks, ?_, ?_⟩
  · intro e he
    constructor
    · intro h
      exact (mem_retainedPrecedences.mp h).2
    · intro h
      exact mem_retainedPrecedences.mpr ⟨he, h.1, h.2⟩
  · intro e he
    exact (mem_retainedPrecedences.mp he).1

/-- C7 witness: on `c7_db` the self-edge (1, 1) among selected tasks is
kept while the edge (1, 2) into a `Completed` task is silently dropped. -/
theorem c7_witness :
    (1, 1) ∈ (optModel c7_db).precedenceConstraints ∧
    (1, 2) ∉ (optModel c7_db).precedenceConstraints := by
  have h := c7_assembler_selection c7_db
  constructor
  · exact (h.2.2.2.1 (1, 1) (by decide)).mpr
      ⟨⟨mkTask 1 1 1 .Pending none none, by decide, rfl⟩,
       ⟨mkTask 1 1 1 .Pending none none, by decide, rfl⟩⟩
  · intro hc
    have h2 := ((h.2.2.2.1 (1, 2) (by decide)).mp hc).2
    exact absurd h2 (by decide)

/-- C8: `PATCH /tasks/{id}/status` accepts exactly the five status values
of the data model (via their wire strings, `validStatusStrings`):
an accepted value on an existing task answers 200 and rewrites just that
task's status; a string outside the set answers 400 unchanged; a valid
value on an unknown id answers 404 unchanged; and the accepted set is
exactly the image of the five statuses. -/
theorem c8_status_endpoint (db : DB) (tid : TaskId) :
    (∀ st : Status, (∃ t ∈ db.tasks, t.task_id = tid) →
      (update_task_status db tid (some st.toWire)).2 = 200 ∧
      (update_task_status db tid (some st.toWire)).1.tasks =
        db.tasks.map (fun t =>
          if t.task_id = tid then { t with status := st } else t)) ∧
    (∀ s : String, s ∉ validStatusStrings →
      update_task_status db tid (some s) = (db, 400)) ∧
    (∀ s : String, (∀ t ∈ db.tasks, t.task_id ≠ tid) →
      s ∈ validStatusStrings →
      update_task_status db tid (some s) = (db, 404)) ∧
    (∀ s : String, s ∈ validStatusStrings ↔ ∃ st : Status, st.toWire = s) := by
  refine ⟨?_, ?_, ?_, valid_iff_wire⟩
  · intro st hex
    have hne : ¬ ∀ t ∈ db.tasks, t.task_id ≠ tid := by
      rcases hex with ⟨t, ht, hteq⟩
      intro hall
      exact hall t ht hteq
    have hww : ¬ (st.toWire = "") := by cases st <;> decide
    simp only [update_task_status, parseStatus_toWire]
    rw [if_neg hww, if_neg hne]
    exact ⟨rfl, rfl⟩
  · intro s hns
    by_cases he : s = ""
    · subst he
      rfl
    · have hp : parseStatus s = none := (parseStatus_eq_none_iff s).mpr hns
      simp only [update_task_status, hp]
      rw [if_neg he]
  · intro s hall hvalid
    rcases (valid_iff_wire s).mp hvalid with ⟨st, rfl⟩
    have hww : ¬ (st.toWire = "") := by cases st <;> decide
    simp only [update_task_status, parseStatus_toWire]
    rw [if_neg hww, if_pos hall]

/-- C8 witness: on a one-task store, a valid status on task 1 answers
200, an invalid string answers 400 unchanged, and a valid status on the
unknown task 2 answers 404 unchanged. -/
theorem c8_witness :
    (update_task_status c8_db 1 (some "Scheduled")).2 = 200 ∧
    update_task_status c8_db 1 (some "Bogus") = (c8_db, 400) ∧
    update_task_status c8_db 2 (some "Pending") = (c8_db, 404) := by
  have h1 := c8_status_endpoint c8_db 1
  have h2 := c8_status_endpoint c8_db 2
  exact ⟨(h1.1 Status.Scheduled ⟨mkTask 1 1 1 .Pending none none, by decide, rfl⟩).1,
    h1.2.1 "Bogus" (by decide),
    h2.2.2.1 "Pending" (by decide) (by decide)⟩

/-- C10 witness: a single canceled task re-activated by an optimal
solve. -/
theorem c10_witness :
    mkTask 1 1 1 .Canceled none none ∈ fetch_tasks c10_db ∧
    { mkTask 1 1 1 .Canceled none none with
      start_time := some (scheduleAnchor (some 0) 0 + 60 * ((0 : ℤ) : ℚ)),
      end_time := some (scheduleAnchor (some 0) 0 + 60 * ((60 : ℤ) : ℚ)),
      status := Status.Scheduled } ∈
      (run_optimization c10_db (some 0) 0 c10_solve).1.tasks :=
  c10_canceled_rescheduled c10_db (some 0) 0 c10_solve
    (mkTask 1 1 1 .Canceled none none) (by decide) (Or.inl rfl) (Or.inl rfl)

end SchedulerApp
